import Mathlib

/-!
  # puff-rs: Filter/Rank algebra and client, shallowly embedded

  The repository is a Rust client for a hosted vector-search service.  Its
  visible source is `src/client.rs` (HTTP glue: base-URL construction,
  header/path assembly, status handling) plus integration tests.  The
  Filter/RankBy query algebra and its JSON wire encoder/decoder are part of
  the crate but their source file is not present here, so those definitions
  are modelled from the specification's grammar; the client definitions are
  translated directly from `src/client.rs`.
-/

namespace Puff

/-- A JSON value as used on the wire: null, booleans, numbers (modelled as
rationals, standing for finite doubles), strings and arrays. -/
inductive Json where
  | null : Json
  | bool (b : Bool) : Json
  | num (q : ℚ) : Json
  | str (s : String) : Json
  | arr (l : List Json) : Json

/-- Modelled from the spec: the recursive boolean Filter tree (section 3).
The Filter type itself is not under `src/`; only its tests and callers are.
Variants: comparisons `Eq`/`NotEq`/`Lt`/`Lte`/`Gt`/`Gte`/`Contains` over one
value, set comparisons `In`/`ContainsAny` over a sequence of values, and
boolean combinators `And`/`Or` (ordered sequences) and `Not` (one child). -/
inductive Filter where
  | Eq (attr : String) (v : Json)
  | NotEq (attr : String) (v : Json)
  | Lt (attr : String) (v : Json)
  | Lte (attr : String) (v : Json)
  | Gt (attr : String) (v : Json)
  | Gte (attr : String) (v : Json)
  | In (attr : String) (vs : List Json)
  | Contains (attr : String) (v : Json)
  | ContainsAny (attr : String) (vs : List Json)
  | And (fs : List Filter)
  | Or (fs : List Filter)
  | Not (f : Filter)

/-- Modelled from the spec: construction-time validation failures (section 7):
wrong arity, or a non-finite `Product` weight. -/
inductive ValidationError where
  | wrongArity
  | nonFiniteWeight
deriving DecidableEq

/-- Modelled from the spec: decode failures (section 4.3). -/
inductive DecodeError where
  | unknownOperator
  | arityMismatch
deriving DecidableEq

def Filter.eq (attr : String) (v : Json) : Filter := .Eq attr v

def Filter.not_eq (attr : String) (v : Json) : Filter := .NotEq attr v

def Filter.lt (attr : String) (v : Json) : Filter := .Lt attr v

def Filter.lte (attr : String) (v : Json) : Filter := .Lte attr v

def Filter.gt (attr : String) (v : Json) : Filter := .Gt attr v

def Filter.gte (attr : String) (v : Json) : Filter := .Gte attr v

def Filter.in_ (attr : String) (vs : List Json) : Filter := .In attr vs

def Filter.contains (attr : String) (v : Json) : Filter := .Contains attr v

def Filter.contains_any (attr : String) (vs : List Json) : Filter := .ContainsAny attr vs

def Filter.and (fs : List Filter) : Filter := .And fs

def Filter.or (fs : List Filter) : Filter := .Or fs

def Filter.not (f : Filter) : Filter := .Not f

/-- Modelled from the spec: a sequence-taking `not` constructor with the
runtime arity check of section 8 — zero or two-plus children is a
`ValidationError`, exactly one child succeeds. -/
def Filter.notOfList (fs : List Filter) : Except ValidationError Filter :=
  match fs with
  | [f] => .ok (.Not f)
  | _ => .error .wrongArity

mutual

/-- Modelled from the spec: the Filter wire encoder (sections 4.1, 6). Each
variant becomes `[operator_token, operands]`; comparison operands are
`[attr, value]`, set operands `[attr, [values...]]`, boolean operands an
array of nested encoded filters, and `Not` carries its encoded child. -/
def encodeFilter : Filter → Json
  | .Eq a v => .arr [.str "Eq", .arr [.str a, v]]
  | .NotEq a v => .arr [.str "NotEq", .arr [.str a, v]]
  | .Lt a v => .arr [.str "Lt", .arr [.str a, v]]
  | .Lte a v => .arr [.str "Lte", .arr [.str a, v]]
  | .Gt a v => .arr [.str "Gt", .arr [.str a, v]]
  | .Gte a v => .arr [.str "Gte", .arr [.str a, v]]
  | .In a vs => .arr [.str "In", .arr [.str a, .arr vs]]
  | .Contains a v => .arr [.str "Contains", .arr [.str a, v]]
  | .ContainsAny a vs => .arr [.str "ContainsAny", .arr [.str a, .arr vs]]
  | .And fs => .arr [.str "And", .arr (encodeFilterList fs)]
  | .Or fs => .arr [.str "Or", .arr (encodeFilterList fs)]
  | .Not f => .arr [.str "Not", encodeFilter f]

/-- Encode each filter of a sequence in order. -/
def encodeFilterList : List Filter → List Json
  | [] => []
  | f :: fs => encodeFilter f :: encodeFilterList fs

end

/-- Decode the `[attr, value]` operand form of a comparison operator. -/
def decodeCmp (k : String → Json → Filter) : Json → Except DecodeError Filter
  | .arr [.str a, v] => .ok (k a v)
  | _ => .error .arityMismatch

/-- Decode the `[attr, [values...]]` operand form of a set operator. -/
def decodeSet (k : String → List Json → Filter) : Json → Except DecodeError Filter
  | .arr [.str a, .arr vs] => .ok (k a vs)
  | _ => .error .arityMismatch

mutual

/-- Modelled from the spec: the Filter wire decoder (section 4.3), inverse of
`encodeFilter`; fails with `unknownOperator` or `arityMismatch`. -/
def decodeFilter : Json → Except DecodeError Filter
  | .arr [.str op, operands] =>
    if op = "Eq" then decodeCmp .Eq operands
    else if op = "NotEq" then decodeCmp .NotEq operands
    else if op = "Lt" then decodeCmp .Lt operands
    else if op = "Lte" then decodeCmp .Lte operands
    else if op = "Gt" then decodeCmp .Gt operands
    else if op = "Gte" then decodeCmp .Gte operands
    else if op = "In" then decodeSet .In operands
    else if op = "Contains" then decodeCmp .Contains operands
    else if op = "ContainsAny" then decodeSet .ContainsAny operands
    else if op = "And" then
      match operands with
      | .arr fs => Filter.And <$> decodeFilterList fs
      | _ => .error .arityMismatch
    else if op = "Or" then
      match operands with
      | .arr fs => Filter.Or <$> decodeFilterList fs
      | _ => .error .arityMismatch
    else if op = "Not" then
      Filter.Not <$> decodeFilter operands
    else .error .unknownOperator
  | _ => .error .arityMismatch

/-- Decode a list of encoded filters, failing on the first bad element. -/
def decodeFilterList : List Json → Except DecodeError (List Filter)
  | [] => .ok []
  | j :: js => do
    let f ← decodeFilter j
    let fs ← decodeFilterList js
    pure (f :: fs)

end

/-- Sort direction of an `AttributeOrder` rank leaf. -/
inductive Direction where
  | Asc
  | Desc
deriving DecidableEq

/-- Modelled from the spec: the recursive Rank tree (section 3). Leaves are
vector search (ANN), BM25 text relevance and attribute order; combinators are
`Sum`, weighted `Product` (weight kept as a rational: a finite double, which
is all the validating constructor admits) and `Max`. -/
inductive RankBy where
  | VectorSearch (attr : String) (v : List ℚ)
  | TextRelevance (attr : String) (t : String)
  | AttributeOrder (attr : String) (d : Direction)
  | Sum (rs : List RankBy)
  | Product (w : ℚ) (r : RankBy)
  | Max (rs : List RankBy)

/-- A double value, abstracted: either a finite value (a rational) or one of
the non-finite values NaN / +infinity / -infinity. -/
inductive F64 where
  | finite (q : ℚ)
  | nan
  | inf
  | negInf
deriving DecidableEq

def F64.isFinite : F64 → Bool
  | .finite _ => true
  | _ => false

def RankBy.vector (attr : String) (v : List ℚ) : RankBy := .VectorSearch attr v

def RankBy.bm25 (attr : String) (t : String) : RankBy := .TextRelevance attr t

def RankBy.asc (attr : String) : RankBy := .AttributeOrder attr .Asc

def RankBy.desc (attr : String) : RankBy := .AttributeOrder attr .Desc

def RankBy.sum (rs : List RankBy) : RankBy := .Sum rs

def RankBy.max (rs : List RankBy) : RankBy := .Max rs

/-- Modelled from the spec: the `product` constructor validates its weight at
construction time — a non-finite (NaN/infinite) weight is a
`ValidationError`, a finite weight builds the `Product` node (section 4.2). -/
def RankBy.product (w : F64) (child : RankBy) : Except ValidationError RankBy :=
  match w with
  | .finite q => .ok (.Product q child)
  | _ => .error .nonFiniteWeight

mutual

/-- Modelled from the spec: the Rank wire encoder (sections 4.2, 6). Leaves
encode as `[attr, "ANN", vector]`, `[attr, "BM25", text]`,
`[attr, "asc"|"desc"]`; combinators as `["Sum", [children...]]`,
`["Product", [weight, child]]`, `["Max", [children...]]`. -/
def encodeRank : RankBy → Json
  | .VectorSearch a v => .arr [.str a, .str "ANN", .arr (v.map Json.num)]
  | .TextRelevance a t => .arr [.str a, .str "BM25", .str t]
  | .AttributeOrder a .Asc => .arr [.str a, .str "asc"]
  | .AttributeOrder a .Desc => .arr [.str a, .str "desc"]
  | .Sum rs => .arr [.str "Sum", .arr (encodeRankList rs)]
  | .Product w r => .arr [.str "Product", .arr [.num w, encodeRank r]]
  | .Max rs => .arr [.str "Max", .arr (encodeRankList rs)]

/-- Encode each rank expression of a sequence in order. -/
def encodeRankList : List RankBy → List Json
  | [] => []
  | r :: rs => encodeRank r :: encodeRankList rs

end

/-- Decode a JSON array of numbers into a rational vector. -/
def decodeNums : List Json → Except DecodeError (List ℚ)
  | [] => .ok []
  | .num q :: js => do
    let qs ← decodeNums js
    pure (q :: qs)
  | _ :: _ => .error .arityMismatch

mutual

/-- Modelled from the spec: the Rank wire decoder (section 4.3), inverse of
`encodeRank`. Leaf shapes are three-element arrays keyed by `"ANN"`/`"BM25"`
or two-element arrays ending in `"asc"`/`"desc"`; combinator shapes are
`[token, array]` keyed by `"Sum"`/`"Product"`/`"Max"`. -/
def decodeRank : Json → Except DecodeError RankBy
  | .arr [.str a, .str kind, payload] =>
    if kind = "ANN" then
      match payload with
      | .arr v => RankBy.VectorSearch a <$> decodeNums v
      | _ => .error .arityMismatch
    else if kind = "BM25" then
      match payload with
      | .str t => .ok (.TextRelevance a t)
      | _ => .error .arityMismatch
    else .error .unknownOperator
  | .arr [.str a, .str d] =>
    if d = "asc" then .ok (.AttributeOrder a .Asc)
    else if d = "desc" then .ok (.AttributeOrder a .Desc)
    else .error .unknownOperator
  | .arr [.str tok, .arr ops] =>
    if tok = "Sum" then RankBy.Sum <$> decodeRankList ops
    else if tok = "Max" then RankBy.Max <$> decodeRankList ops
    else if tok = "Product" then decodeProductOps ops
    else .error .unknownOperator
  | _ => .error .arityMismatch

/-- Decode the `[weight, child]` operand pair of a `Product` combinator. -/
def decodeProductOps : List Json → Except DecodeError RankBy
  | [.num w, c] => RankBy.Product w <$> decodeRank c
  | _ => .error .arityMismatch

/-- Decode a list of encoded rank expressions. -/
def decodeRankList : List Json → Except DecodeError (List RankBy)
  | [] => .ok []
  | j :: js => do
    let r ← decodeRank j
    let rs ← decodeRankList js
    pure (r :: rs)

end

/-! ## Client (`src/client.rs`) -/

/-- `DEFAULT_BASE_URL` from `client.rs`. -/
def DEFAULT_BASE_URL : String := "https://api.turbopuffer.com"

/-- The client's configuration state (`Client` in `client.rs`, minus the
reqwest handle, which carries no data of its own). -/
structure Client where
  api_key : String
  base_url : String
deriving DecidableEq

/-- `Client::new`: default base URL. -/
def Client.new (api_key : String) : Client := ⟨api_key, DEFAULT_BASE_URL⟩

/-- `Client::with_region`: base URL is `https://{region}.turbopuffer.com`. -/
def Client.with_region (api_key : String) (region : String) : Client :=
  ⟨api_key, "https://" ++ region ++ ".turbopuffer.com"⟩

/-- `Client::with_base_url`. -/
def Client.with_base_url (api_key : String) (base_url : String) : Client :=
  ⟨api_key, base_url⟩

/-- The client error type as used by `client.rs`: `Error::Api { status,
message }` for non-2xx responses (and the missing-API-key case), and a
transport-level error for everything reqwest surfaces via `?`. -/
inductive Error where
  | api (status : Nat) (message : String)
  | transport (message : String)
deriving DecidableEq

/-- `Client::from_env`: reads `TURBOPUFFER_API_KEY` (its absence yields
`Error::Api` with status 0) and maps `TURBOPUFFER_REGION`, when set, to the
regional base URL, falling back to `DEFAULT_BASE_URL`. The process
environment is passed in as a lookup function. -/
def Client.from_env (env : String → Option String) : Except Error Client :=
  match env "TURBOPUFFER_API_KEY" with
  | none => .error (.api 0 "TURBOPUFFER_API_KEY not set")
  | some api_key =>
    let base_url :=
      match env "TURBOPUFFER_REGION" with
      | some r => "https://" ++ r ++ ".turbopuffer.com"
      | none => DEFAULT_BASE_URL
    .ok ⟨api_key, base_url⟩

/-- `NamespacesParams` from `client.rs`. The first field is named `prefix`
in the source; that word is reserved here, so it is `pfx`. `page_size` is a
`u32`, modelled as `Nat` (only its decimal rendering matters here). -/
structure NamespacesParams where
  pfx : Option String
  cursor : Option String
  page_size : Option Nat
deriving DecidableEq

/-- The path-building part of `Client::namespaces` (client.rs lines 71-90):
push `prefix=`, `cursor=`, `page_size=` fragments for the parameters that
are present, in that order, and join them with `&` after a `?`. -/
def Client.namespacesPath (params : NamespacesParams) : String :=
  let query_parts : List String :=
    (match params.pfx with
      | some p => ["prefix=" ++ p]
      | none => []) ++
    (match params.cursor with
      | some c => ["cursor=" ++ c]
      | none => []) ++
    (match params.page_size with
      | some n => ["page_size=" ++ toString n]
      | none => [])
  if query_parts.isEmpty then
    "/v1/namespaces"
  else
    "/v1/namespaces?" ++ String.intercalate "&" query_parts

/-- The outgoing HTTP request assembled by `Client::request` before sending:
method, full URL, headers, and optional JSON body. -/
structure RequestData where
  method : String
  url : String
  headers : List (String × String)
  body : Option Json

/-- A received HTTP response, as observed through reqwest: its status code,
the result of reading the body as text, and the result of parsing the body
as JSON (each can fail at the transport level). -/
structure HttpResponse where
  status : Nat
  text : Except String String
  json : Except String Json

/-- reqwest's `StatusCode::is_success`: status in 200..=299. -/
def statusIsSuccess (s : Nat) : Bool := 200 ≤ s && s < 300

/-- The request-assembly part of `Client::request`: the URL is the base URL
concatenated with the path, and the `Authorization: Bearer {api_key}` and
`Content-Type: application/json` headers are always attached; the body is
attached when present. -/
def Client.buildRequest (c : Client) (method : String) (path : String)
    (body : Option Json) : RequestData :=
  ⟨method, c.base_url ++ path,
    [("Authorization", "Bearer " ++ c.api_key),
     ("Content-Type", "application/json")],
    body⟩

/-- `Client::request` (client.rs lines 92-121), with the network send passed
in as a function. A failed send surfaces as a transport error (`?`). On a
non-success status the result is `Error::Api` carrying the status and the
body text, defaulted to `""` when the body read fails
(`unwrap_or_default`). On success the parsed JSON is returned, a parse
failure again surfacing via `?`. -/
def Client.request (c : Client) (method : String) (path : String)
    (body : Option Json) (send : RequestData → Except String HttpResponse) :
    Except Error Json :=
  match send (c.buildRequest method path body) with
  | .error e => .error (.transport e)
  | .ok resp =>
    if !statusIsSuccess resp.status then
      .error (.api resp.status (match resp.text with
        | .ok t => t
        | .error _ => ""))
    else
      match resp.json with
      | .ok j => .ok j
      | .error e => .error (.transport e)

/-- A concrete environment: both turbopuffer variables set. -/
def envBoth : String → Option String
  | "TURBOPUFFER_API_KEY" => some "k"
  | "TURBOPUFFER_REGION" => some "r"
  | _ => none

/-- A concrete environment: no variables set. -/
def envEmpty : String → Option String := fun _ => none

/-- A concrete response: status 500, readable body, unparsable JSON. -/
def resp500 : HttpResponse := ⟨500, .ok "boom", .error "bad json"⟩

/-- A concrete transport that always answers `resp500`. -/
def send500 : RequestData → Except String HttpResponse := fun _ => .ok resp500

/-- A concrete response whose body cannot be read. -/
def respUnreadable : HttpResponse := ⟨404, .error "io", .error "io"⟩

/-- A concrete transport that always answers `respUnreadable`. -/
def sendUnreadable : RequestData → Except String HttpResponse :=
  fun _ => .ok respUnreadable

mutual

/-- Number of nodes of a JSON value (used to separate a value from any of
its strict subvalues). -/
def jsize : Json → Nat
  | .null => 1
  | .bool _ => 1
  | .num _ => 1
  | .str _ => 1
  | .arr l => 1 + jsizeList l

/-- Total node count of a list of JSON values. -/
def jsizeList : List Json → Nat
  | [] => 0
  | j :: js => jsize j + jsizeList js

end

/-! ## Round-trip lemmas -/

mutual

/-- Decoding an encoded filter gives the filter back. -/
theorem decodeFilter_encodeFilter (f : Filter) :
    decodeFilter (encodeFilter f) = .ok f := by
  cases f with
  | Eq a v => rfl
  | NotEq a v => rfl
  | Lt a v => rfl
  | Lte a v => rfl
  | Gt a v => rfl
  | Gte a v => rfl
  | In a vs => rfl
  | Contains a v => rfl
  | ContainsAny a vs => rfl
  | And fs =>
    have h : decodeFilter (encodeFilter (Filter.And fs)) =
        Filter.And <$> decodeFilterList (encodeFilterList fs) := rfl
    rw [h, decodeFilterList_encodeFilterList fs]; rfl
  | Or fs =>
    have h : decodeFilter (encodeFilter (Filter.Or fs)) =
        Filter.Or <$> decodeFilterList (encodeFilterList fs) := rfl
    rw [h, decodeFilterList_encodeFilterList fs]; rfl
  | Not g =>
    have h : decodeFilter (encodeFilter (Filter.Not g)) =
        Filter.Not <$> decodeFilter (encodeFilter g) := rfl
    rw [h, decodeFilter_encodeFilter g]; rfl

/-- Decoding an encoded filter sequence gives the sequence back. -/
theorem decodeFilterList_encodeFilterList (fs : List Filter) :
    decodeFilterList (encodeFilterList fs) = .ok fs := by
  cases fs with
  | nil => rfl
  | cons f fs =>
    have h : decodeFilterList (encodeFilterList (f :: fs)) =
        (decodeFilter (encodeFilter f)).bind fun x =>
          (decodeFilterList (encodeFilterList fs)).bind fun xs =>
            pure (x :: xs) := rfl
    rw [h, decodeFilter_encodeFilter f, decodeFilterList_encodeFilterList fs]
    rfl

end

/-- Decoding a JSON array of encoded numbers gives the vector back. -/
theorem decodeNums_map (v : List ℚ) : decodeNums (v.map Json.num) = .ok v := by
  induction v with
  | nil => rfl
  | cons q qs ih =>
    have h : decodeNums ((q :: qs).map Json.num) =
        (decodeNums (qs.map Json.num)).bind fun l => pure (q :: l) := rfl
    rw [h, ih]; rfl

mutual

/-- Decoding an encoded rank expression gives the expression back. -/
theorem decodeRank_encodeRank (r : RankBy) :
    decodeRank (encodeRank r) = .ok r := by
  cases r with
  | VectorSearch a v =>
    have h : decodeRank (encodeRank (RankBy.VectorSearch a v)) =
        RankBy.VectorSearch a <$> decodeNums (v.map Json.num) := rfl
    rw [h, decodeNums_map v]; rfl
  | TextRelevance a t => rfl
  | AttributeOrder a d => cases d <;> rfl
  | Sum rs =>
    have h : decodeRank (encodeRank (RankBy.Sum rs)) =
        RankBy.Sum <$> decodeRankList (encodeRankList rs) := rfl
    rw [h, decodeRankList_encodeRankList rs]; rfl
  | Product w r =>
    have h : decodeRank (encodeRank (RankBy.Product w r)) =
        RankBy.Product w <$> decodeRank (encodeRank r) := rfl
    rw [h, decodeRank_encodeRank r]; rfl
  | Max rs =>
    have h : decodeRank (encodeRank (RankBy.Max rs)) =
        RankBy.Max <$> decodeRankList (encodeRankList rs) := rfl
    rw [h, decodeRankList_encodeRankList rs]; rfl

/-- Decoding an encoded rank sequence gives the sequence back. -/
theorem decodeRankList_encodeRankList (rs : List RankBy) :
    decodeRankList (encodeRankList rs) = .ok rs := by
  cases rs with
  | nil => rfl
  | cons r rs =>
    have h : decodeRankList (encodeRankList (r :: rs)) =
        (decodeRank (encodeRank r)).bind fun x =>
          (decodeRankList (encodeRankList rs)).bind fun xs =>
            pure (x :: xs) := rfl
    rw [h, decodeRank_encodeRank r, decodeRankList_encodeRankList rs]; rfl

end

/-- Encoding a double negation adds four JSON nodes over the child's
encoding. -/
theorem jsize_not_not (f : Filter) :
    jsize (encodeFilter (Filter.not (Filter.not f))) =
      4 + jsize (encodeFilter f) := by
  simp [Filter.not, encodeFilter, jsize, jsizeList]
  omega

/-! ## Claims -/

/-- Claim C1: for every validly constructed Filter tree `f`,
`decode(encode(f))` is structurally equal to `f`, and the same round-trip
holds for every validly constructed Rank tree, in particular for
`product(2.0, max([product(2.0, bm25("title","one")), bm25("content","foo")]))`. -/
theorem c1_decode_encode_roundtrip :
    (∀ f : Filter, decodeFilter (encodeFilter f) = .ok f) ∧
    (∀ r : RankBy, decodeRank (encodeRank r) = .ok r) ∧
    decodeRank (encodeRank (RankBy.Product 2 (RankBy.Max
      [RankBy.Product 2 (RankBy.TextRelevance "title" "one"),
       RankBy.TextRelevance "content" "foo"]))) =
      .ok (RankBy.Product 2 (RankBy.Max
      [RankBy.Product 2 (RankBy.TextRelevance "title" "one"),
       RankBy.TextRelevance "content" "foo"])) :=
  ⟨decodeFilter_encodeFilter, decodeRank_encodeRank, decodeRank_encodeRank _⟩

/-- Claim C2: `and([or([in("numbers", [2,4])]), not_eq("foo", null)])`
encodes to exactly
`["And", [["Or", [["In", ["numbers", [2,4]]]]], ["NotEq", ["foo", null]]]]`:
two-element `[operator, operands]` arrays with verbatim operator tokens,
`[attribute, value]` comparison operands, and arrays of nested encoded
filters as boolean operands. -/
theorem c2_encode_scenario1 :
    encodeFilter (Filter.and [Filter.or [Filter.in_ "numbers"
        [Json.num 2, Json.num 4]],
      Filter.not_eq "foo" Json.null]) =
    Json.arr [Json.str "And", Json.arr [
      Json.arr [Json.str "Or", Json.arr [
        Json.arr [Json.str "In", Json.arr [Json.str "numbers",
          Json.arr [Json.num 2, Json.num 4]]]]],
      Json.arr [Json.str "NotEq", Json.arr [Json.str "foo", Json.null]]]] :=
  rfl

/-- Claim C3 (as stated) is false: the encoding of
`sum([bm25("text","large tusk"), bm25("text","mollusk diet")])` is not the
doubly nested `["Sum", [[["text","BM25","large tusk"]],
[["text","BM25","mollusk diet"]]]]` — each child carries no extra array
wrapper around the `[attr, "BM25", text]` leaf. -/
theorem c3_counterexample :
    encodeRank (RankBy.sum [RankBy.bm25 "text" "large tusk",
      RankBy.bm25 "text" "mollusk diet"]) ≠
    Json.arr [Json.str "Sum", Json.arr [
      Json.arr [Json.arr [Json.str "text", Json.str "BM25",
        Json.str "large tusk"]],
      Json.arr [Json.arr [Json.str "text", Json.str "BM25",
        Json.str "mollusk diet"]]]] := by
  intro h
  simp [RankBy.sum, RankBy.bm25, encodeRank, encodeRankList] at h

/-- Claim C3, amended: `sum([bm25("text","large tusk"),
bm25("text","mollusk diet")])` encodes to
`["Sum", [["text","BM25","large tusk"], ["text","BM25","mollusk diet"]]]`,
each `TextRelevance` leaf encoding as `[attribute, "BM25", query_text]` and
`Sum` as `["Sum", [children...]]`. -/
theorem c3_encode_scenario2 :
    encodeRank (RankBy.sum [RankBy.bm25 "text" "large tusk",
        RankBy.bm25 "text" "mollusk diet"]) =
      Json.arr [Json.str "Sum", Json.arr [
        Json.arr [Json.str "text", Json.str "BM25", Json.str "large tusk"],
        Json.arr [Json.str "text", Json.str "BM25",
          Json.str "mollusk diet"]]] ∧
    (∀ a t, encodeRank (RankBy.TextRelevance a t) =
      Json.arr [Json.str a, Json.str "BM25", Json.str t]) ∧
    (∀ rs, encodeRank (RankBy.Sum rs) =
      Json.arr [Json.str "Sum", Json.arr (encodeRankList rs)]) :=
  ⟨rfl, fun _ _ => rfl, fun _ => rfl⟩

/-- Claim C4: `not()` with zero children or two-plus children is a
`ValidationError`; `and()`/`or()` with zero children succeed and encode to
an empty operand array, which decodes back to the same empty combinator
rather than collapsing to a literal true/false. -/
theorem c4_arity_invariants :
    Filter.notOfList [] = .error .wrongArity ∧
    (∀ (f g : Filter) (rest : List Filter),
      Filter.notOfList (f :: g :: rest) = .error .wrongArity) ∧
    Filter.and [] = Filter.And [] ∧
    Filter.or [] = Filter.Or [] ∧
    encodeFilter (Filter.and []) = Json.arr [Json.str "And", Json.arr []] ∧
    encodeFilter (Filter.or []) = Json.arr [Json.str "Or", Json.arr []] ∧
    decodeFilter (Json.arr [Json.str "And", Json.arr []]) =
      .ok (Filter.and []) ∧
    decodeFilter (Json.arr [Json.str "Or", Json.arr []]) =
      .ok (Filter.or []) :=
  ⟨rfl, fun _ _ _ => rfl, rfl, rfl, rfl, rfl, rfl, rfl⟩

/-- Claim C5: `product` with a NaN or infinite weight fails with a
`ValidationError` at construction time; `product(2.0, child)` succeeds and
its encoding carries the weight as exactly the number `2`. -/
theorem c5_weight_validation :
    (∀ child : RankBy,
      RankBy.product F64.nan child = .error .nonFiniteWeight) ∧
    (∀ child : RankBy,
      RankBy.product F64.inf child = .error .nonFiniteWeight) ∧
    (∀ child : RankBy,
      RankBy.product (F64.finite 2) child = .ok (RankBy.Product 2 child)) ∧
    (∀ child : RankBy, encodeRank (RankBy.Product 2 child) =
      Json.arr [Json.str "Product",
        Json.arr [Json.num 2, encodeRank child]]) :=
  ⟨fun _ => rfl, fun _ => rfl, fun _ => rfl, fun _ => rfl⟩

/-- Claim C6: for every filter `f`, `encode(not(not(f)))` nests two `"Not"`
wrappers around `encode(f)` and is never equal to `encode(f)`; in
particular for `eq("x", 1)`. -/
theorem c6_double_negation :
    (∀ f : Filter, encodeFilter (Filter.not (Filter.not f)) =
      Json.arr [Json.str "Not", Json.arr [Json.str "Not", encodeFilter f]]) ∧
    (∀ f : Filter,
      encodeFilter (Filter.not (Filter.not f)) ≠ encodeFilter f) ∧
    encodeFilter (Filter.not (Filter.not (Filter.eq "x" (Json.num 1)))) ≠
      encodeFilter (Filter.eq "x" (Json.num 1)) := by
  have h2 : ∀ f : Filter,
      encodeFilter (Filter.not (Filter.not f)) ≠ encodeFilter f := by
    intro f h
    have hs := congrArg jsize h
    rw [jsize_not_not] at hs
    omega
  exact ⟨fun _ => rfl, h2, h2 _⟩

/-- Claim C7 (as stated) is false: the client produces an `Api` error from
an operation that involves no HTTP response at all — `from_env` returns
`Error::Api` with status 0 when `TURBOPUFFER_API_KEY` is unset. -/
theorem c7_counterexample :
    Client.from_env envEmpty =
      .error (.api 0 "TURBOPUFFER_API_KEY not set") := rfl

/-- Claim C7, amended: `request` returns an `Api` error if and only if the
response status is non-2xx, and that error carries the numeric status and
the raw body text (untranslated); a failed send is a transport error, not
an `Api` error; and the one other source of an `Api` error is `from_env`,
which returns status 0 with a fixed message when `TURBOPUFFER_API_KEY` is
unset. -/
theorem c7_api_error_iff :
    (∀ (c : Client) (method path : String) (body : Option Json)
        (send : RequestData → Except String HttpResponse)
        (resp : HttpResponse),
      send (c.buildRequest method path body) = .ok resp →
      ((∃ s m, c.request method path body send = .error (.api s m)) ↔
        statusIsSuccess resp.status = false)) ∧
    (∀ (c : Client) (method path : String) (body : Option Json)
        (send : RequestData → Except String HttpResponse)
        (resp : HttpResponse) (t : String),
      send (c.buildRequest method path body) = .ok resp →
      statusIsSuccess resp.status = false →
      resp.text = .ok t →
      c.request method path body send = .error (.api resp.status t)) ∧
    (∀ (c : Client) (method path : String) (body : Option Json)
        (send : RequestData → Except String HttpResponse) (e : String),
      send (c.buildRequest method path body) = .error e →
      c.request method path body send = .error (.transport e)) ∧
    (∀ env : String → Option String, env "TURBOPUFFER_API_KEY" = none →
      Client.from_env env =
        .error (.api 0 "TURBOPUFFER_API_KEY not set")) := by
  refine ⟨?_, ?_, ?_, ?_⟩
  · intro c method path body send resp hsend
    have hreq : c.request method path body send =
        (if !statusIsSuccess resp.status then
          .error (.api resp.status (match resp.text with
            | .ok t => t
            | .error _ => ""))
        else match resp.json with
          | .ok j => .ok j
          | .error e => .error (.transport e)) := by
      simp [Client.request, hsend]
    rw [hreq]
    cases hst : statusIsSuccess resp.status with
    | false =>
      exact ⟨fun _ => rfl, fun _ => ⟨resp.status, _, rfl⟩⟩
    | true =>
      constructor
      · rintro ⟨s, m, hm⟩
        cases hj : resp.json with
        | ok j => rw [hj] at hm; simp at hm
        | error e => rw [hj] at hm; simp at hm
      · intro hfalse; simp at hfalse
  · intro c method path body send resp t hsend hst htext
    simp [Client.request, hsend, hst, htext]
  · intro c method path body send e hsend
    simp [Client.request, hsend]
  · intro env henv
    simp [Client.from_env, henv]

/-- Witness for C7's amended theorem at a concrete client, transport and
environment. -/
theorem c7_api_error_iff_witness :
    ((∃ s m, (Client.new "k").request "GET" "/p" none send500 =
        .error (.api s m)) ↔ statusIsSuccess resp500.status = false) ∧
    (Client.new "k").request "GET" "/p" none send500 =
      .error (.api 500 "boom") ∧
    Client.from_env envEmpty =
      .error (.api 0 "TURBOPUFFER_API_KEY not set") :=
  ⟨c7_api_error_iff.1 (Client.new "k") "GET" "/p" none send500 resp500 rfl,
   c7_api_error_iff.2.1 (Client.new "k") "GET" "/p" none send500 resp500
     "boom" rfl (by decide) rfl,
   c7_api_error_iff.2.2.2 envEmpty rfl⟩

/-- Claim C8: `with_region(key, r)` (and `from_env` with
`TURBOPUFFER_REGION` set to `r`) targets base URL
`https://{r}.turbopuffer.com`, and every request's URL is the base URL
concatenated with the request path. -/
theorem c8_region_base_url :
    (∀ key region : String, (Client.with_region key region).base_url =
      "https://" ++ region ++ ".turbopuffer.com") ∧
    (∀ (env : String → Option String) (key region : String),
      env "TURBOPUFFER_API_KEY" = some key →
      env "TURBOPUFFER_REGION" = some region →
      Client.from_env env =
        .ok ⟨key, "https://" ++ region ++ ".turbopuffer.com"⟩) ∧
    (∀ (c : Client) (method path : String) (body : Option Json),
      (c.buildRequest method path body).url = c.base_url ++ path) := by
  refine ⟨fun _ _ => rfl, ?_, fun _ _ _ _ => rfl⟩
  intro env key region hk hr
  simp [Client.from_env, hk, hr]

/-- Witness for C8 at a concrete key, region and environment. -/
theorem c8_region_base_url_witness :
    (Client.with_region "k" "r").base_url =
      "https://" ++ "r" ++ ".turbopuffer.com" ∧
    Client.from_env envBoth =
      .ok ⟨"k", "https://" ++ "r" ++ ".turbopuffer.com"⟩ ∧
    ((Client.new "k").buildRequest "GET" "/v1/namespaces" none).url =
      (Client.new "k").base_url ++ "/v1/namespaces" :=
  ⟨c8_region_base_url.1 "k" "r",
   c8_region_base_url.2.1 envBoth "k" "r" rfl rfl,
   c8_region_base_url.2.2 (Client.new "k") "GET" "/v1/namespaces" none⟩

/-- Claim C9: the `namespaces` request path is `/v1/namespaces` when all
parameters are absent, and otherwise appends a query string holding only
the present parameters, joined by `&` in the fixed order
prefix, cursor, page_size. -/
theorem c9_namespaces_path :
    (∀ p : NamespacesParams,
      p.pfx = none → p.cursor = none → p.page_size = none →
      Client.namespacesPath p = "/v1/namespaces") ∧
    (∀ p : NamespacesParams,
      p.pfx ≠ none ∨ p.cursor ≠ none ∨ p.page_size ≠ none →
      Client.namespacesPath p = "/v1/namespaces?" ++ String.intercalate "&"
        ((p.pfx.map fun s => "prefix=" ++ s).toList ++
         (p.cursor.map fun s => "cursor=" ++ s).toList ++
         (p.page_size.map fun n => "page_size=" ++ toString n).toList)) := by
  constructor
  · intro p h1 h2 h3
    obtain ⟨o1, o2, o3⟩ := p
    simp only at h1 h2 h3
    subst h1; subst h2; subst h3
    rfl
  · intro p h
    obtain ⟨o1, o2, o3⟩ := p
    cases o1 <;> cases o2 <;> cases o3 <;>
      simp_all [Client.namespacesPath]

/-- Witness for C9 at concrete parameter records. -/
theorem c9_namespaces_path_witness :
    Client.namespacesPath ⟨none, none, none⟩ = "/v1/namespaces" ∧
    Client.namespacesPath ⟨some "a", none, some 5⟩ =
      "/v1/namespaces?prefix=a&page_size=5" := by
  constructor
  · exact c9_namespaces_path.1 ⟨none, none, none⟩ rfl rfl rfl
  · have h := c9_namespaces_path.2 ⟨some "a", none, some 5⟩ (by simp)
    rw [h]
    rfl

/-- Claim C10: when a non-2xx response's body cannot be read, the `Api`
error's message is the empty string (the read failure is never surfaced as
a transport error), and every request — with or without a body — carries
the `Authorization: Bearer {api_key}` and `Content-Type: application/json`
headers. -/
theorem c10_default_message_and_headers :
    (∀ (c : Client) (method path : String) (body : Option Json)
        (send : RequestData → Except String HttpResponse)
        (resp : HttpResponse) (e : String),
      send (c.buildRequest method path body) = .ok resp →
      statusIsSuccess resp.status = false →
      resp.text = .error e →
      c.request method path body send = .error (.api resp.status "")) ∧
    (∀ (c : Client) (method path : String) (body : Option Json),
      ("Authorization", "Bearer " ++ c.api_key) ∈
        (c.buildRequest method path body).headers ∧
      ("Content-Type", "application/json") ∈
        (c.buildRequest method path body).headers) := by
  constructor
  · intro c method path body send resp e hsend hst htext
    simp [Client.request, hsend, hst, htext]
  · intro c method path body
    constructor <;> simp [Client.buildRequest]

/-- Witness for C10 at a concrete client and transport whose response body
is unreadable. -/
theorem c10_default_message_and_headers_witness :
    (Client.new "k").request "GET" "/p" none sendUnreadable =
      .error (.api 404 "") ∧
    ("Authorization", "Bearer " ++ (Client.new "k").api_key) ∈
      ((Client.new "k").buildRequest "GET" "/p" none).headers :=
  ⟨c10_default_message_and_headers.1 (Client.new "k") "GET" "/p" none
      sendUnreadable respUnreadable "io" rfl (by decide) rfl,
   (c10_default_message_and_headers.2 (Client.new "k") "GET" "/p" none).1⟩

end Puff
